import Mathlib

/-!
Shallow embedding of the pyblocks game engine (src/pyblocks.py):
the `Quad` piece (spawn tables, translation and rotation candidate
functions, `update_coords`), the `Board` grid primitives
(`_coords_available`, `_update_board_list`, `_update_line_filled`),
and the engine transitions (`spawn_quad`, `update_active_quad`).

Python lists are modelled as Lean `List`s; Python list indexing
(including the negative-index convention and the IndexError failure)
is modelled by `pyGet`/`pySet` returning `Option`.  Board cells are
`Nat` with Python truthiness: `0` is free, any nonzero value is set.
Exceptions are modelled with `Except`; a raised exception carries the
(possibly partially mutated) board state at the moment of the raise,
mirroring in-place mutation in Python.
-/

/-- Coordinates are `[x, y]` pairs in the source; we use `(x, y)`. -/
abbrev Coord := Int × Int

abbrev Row := List Nat

abbrev Grid := List Row

/-- Resolves a Python list index against a list of length `len`:
negative indices count from the end, and an index out of range on
either side yields `none` (Python raises IndexError). -/
def pyIdx (len : Nat) (i : Int) : Option Nat :=
  if i < 0 then
    if 0 ≤ i + len then some (i + len).toNat else none
  else if i < (len : Int) then some i.toNat
  else none

/-- Python `l[i]` read. -/
def pyGet {α : Type} (l : List α) (i : Int) : Option α :=
  (pyIdx l.length i).bind fun n => l.get? n

/-- Python `l[i] = v` item assignment (returns the updated list). -/
def pySet {α : Type} (l : List α) (i : Int) (v : α) : Option (List α) :=
  (pyIdx l.length i).map fun n => l.set n v

/-- Python `round` on the exact rational `n / d` (with `d > 0`):
round-half-to-even, matching CPython float rounding (the floats fed to
`round` in the source are sums of small integers divided by 4, which
binary floating point represents exactly). -/
def roundHalfToEven (n d : Int) : Int :=
  let q := Int.fdiv n d
  let r := n - d * q
  if 2 * r < d then q
  else if d < 2 * r then q + 1
  else if q % 2 = 0 then q else q + 1

/-- Closed set of piece shapes (keys of `Quad.QUAD_SPAWNS`). -/
inductive QuadType where
  | LINE
  | SQUARE
  | L
  | J
  | S
  | Z
  | T
deriving DecidableEq, Repr

/-- Spawn coordinates for each Quad piece (`Quad.QUAD_SPAWNS`). -/
def QUAD_SPAWNS : QuadType → List Coord
  | .LINE => [(3, 0), (4, 0), (5, 0), (6, 0)]
  | .SQUARE => [(4, 0), (5, 0), (4, 1), (5, 1)]
  | .L => [(3, 1), (4, 1), (5, 1), (5, 0)]
  | .J => [(3, 1), (4, 1), (5, 1), (3, 0)]
  | .S => [(3, 1), (4, 1), (4, 0), (5, 0)]
  | .Z => [(3, 0), (4, 0), (4, 1), (5, 1)]
  | .T => [(3, 1), (4, 0), (4, 1), (5, 1)]

/-- The state of a `Quad` piece: its type tag and current coordinates. -/
structure Quad where
  type : QuadType
  coords : List Coord
deriving DecidableEq, Repr

/-- A freshly constructed piece (`Quad.__init__`). -/
def Quad.init (t : QuadType) : Quad :=
  { type := t, coords := QUAD_SPAWNS t }

/-- Candidate coordinates after a downward move (`Quad.if_translate_down`). -/
def if_translate_down (coords : List Coord) : List Coord :=
  coords.map fun c => (c.1, c.2 + 1)

/-- Candidate coordinates after a leftward move (`Quad.if_translate_left`). -/
def if_translate_left (coords : List Coord) : List Coord :=
  coords.map fun c => (c.1 - 1, c.2)

/-- Candidate coordinates after a rightward move (`Quad.if_translate_right`). -/
def if_translate_right (coords : List Coord) : List Coord :=
  coords.map fun c => (c.1 + 1, c.2)

/-- Candidate coordinates after a 90-degree clockwise rotation about the
rounded centroid (`Quad.if_rotate_right`). -/
def if_rotate_right (coords : List Coord) : List Coord :=
  let n : Int := coords.length
  let centroid_x := roundHalfToEven (coords.map Prod.fst).sum n
  let centroid_y := roundHalfToEven (coords.map Prod.snd).sum n
  coords.map fun c =>
    let translated_x := c.1 - centroid_x
    let translated_y := c.2 - centroid_y
    let rotated_x := -translated_y
    let rotated_y := translated_x
    (rotated_x + centroid_x, rotated_y + centroid_y)

/-- Update of a piece's coordinates (`Quad.update_coords`): the new
coordinates are accepted exactly when they equal one of the four move
candidates computed at the current position; otherwise the source raises
ValueError, modelled by `none`.  The four comparisons happen in the
insertion order of the `actions` dict. -/
def Quad.update_coords (q : Quad) (updated_coords : List Coord) : Option Quad :=
  if updated_coords = if_translate_down q.coords then
    some { q with coords := updated_coords }
  else if updated_coords = if_translate_left q.coords then
    some { q with coords := updated_coords }
  else if updated_coords = if_translate_right q.coords then
    some { q with coords := updated_coords }
  else if updated_coords = if_rotate_right q.coords then
    some { q with coords := updated_coords }
  else
    none

/-- The initial board of `Board.__init__`: 20 rows of 10 free cells. -/
def initBoard : Grid :=
  [ [0, 0, 0, 0, 0, 0, 0, 0, 0, 0], [0, 0, 0, 0, 0, 0, 0, 0, 0, 0],
    [0, 0, 0, 0, 0, 0, 0, 0, 0, 0], [0, 0, 0, 0, 0, 0, 0, 0, 0, 0],
    [0, 0, 0, 0, 0, 0, 0, 0, 0, 0], [0, 0, 0, 0, 0, 0, 0, 0, 0, 0],
    [0, 0, 0, 0, 0, 0, 0, 0, 0, 0], [0, 0, 0, 0, 0, 0, 0, 0, 0, 0],
    [0, 0, 0, 0, 0, 0, 0, 0, 0, 0], [0, 0, 0, 0, 0, 0, 0, 0, 0, 0],
    [0, 0, 0, 0, 0, 0, 0, 0, 0, 0], [0, 0, 0, 0, 0, 0, 0, 0, 0, 0],
    [0, 0, 0, 0, 0, 0, 0, 0, 0, 0], [0, 0, 0, 0, 0, 0, 0, 0, 0, 0],
    [0, 0, 0, 0, 0, 0, 0, 0, 0, 0], [0, 0, 0, 0, 0, 0, 0, 0, 0, 0],
    [0, 0, 0, 0, 0, 0, 0, 0, 0, 0], [0, 0, 0, 0, 0, 0, 0, 0, 0, 0],
    [0, 0, 0, 0, 0, 0, 0, 0, 0, 0], [0, 0, 0, 0, 0, 0, 0, 0, 0, 0] ]

/-- Loop body of `Board._coords_available`, run inside `bounds_manager`:
`some b` means the loop returned the boolean `b`; `none` means an
IndexError escaped the loop (and is then caught by `bounds_manager`,
after which the function falls through to its trailing `return False`). -/
def coordsAvailableGo (board : Grid) : List Coord → Option Bool
  | [] => some true
  | c :: rest =>
    if c.1 < 0 ∨ c.2 < 0 then some false
    else
      match pyGet board c.2 with
      | none => none
      | some row =>
        match pyGet row c.1 with
        | none => none
        | some v => if v ≠ 0 then some false else coordsAvailableGo board rest

/-- Availability check for a list of coordinates
(`Board._coords_available`). -/
def coords_available (board : Grid) (coords : List Coord) : Bool :=
  (coordsAvailableGo board coords).getD false

/-- Python exception kinds raised by the board-mutation helpers. -/
inductive PyErr where
  | indexError
  | runtimeError
deriving DecidableEq, Repr

/-- Python `self.board_list[c.2][c.1] = v`: fetch the row, assign the
cell in place.  `none` models an IndexError on either subscript. -/
def boardSetCoord (board : Grid) (c : Coord) (v : Nat) : Option Grid :=
  match pyGet board c.2 with
  | none => none
  | some row =>
    match pySet row c.1 v with
    | none => none
    | some row2 => pySet board c.2 row2

/-- First loop of `Board._update_board_list`: set each coordinate of
`add_coords` in turn, raising RuntimeError if the cell is already set.
An error result carries the board as mutated so far, since Python
mutates the list in place before raising. -/
def addCoordsGo (board : Grid) : List Coord → Except (PyErr × Grid) Grid
  | [] => Except.ok board
  | c :: rest =>
    match pyGet board c.2 with
    | none => Except.error (PyErr.indexError, board)
    | some row =>
      match pyGet row c.1 with
      | none => Except.error (PyErr.indexError, board)
      | some v =>
        if v ≠ 0 then Except.error (PyErr.runtimeError, board)
        else
          match boardSetCoord board c 1 with
          | none => Except.error (PyErr.indexError, board)
          | some board2 => addCoordsGo board2 rest

/-- Second loop of `Board._update_board_list`: unset each coordinate of
`remove_coords` in turn, raising RuntimeError if the cell is already
unset. -/
def removeCoordsGo (board : Grid) : List Coord → Except (PyErr × Grid) Grid
  | [] => Except.ok board
  | c :: rest =>
    match pyGet board c.2 with
    | none => Except.error (PyErr.indexError, board)
    | some row =>
      match pyGet row c.1 with
      | none => Except.error (PyErr.indexError, board)
      | some v =>
        if v = 0 then Except.error (PyErr.runtimeError, board)
        else
          match boardSetCoord board c 0 with
          | none => Except.error (PyErr.indexError, board)
          | some board2 => removeCoordsGo board2 rest

/-- Board mutation (`Board._update_board_list`): set `add_coords`, then
unset `remove_coords`; an exception aborts the call, leaving the
mutations already performed in place. -/
def update_board_list (board : Grid) (add_coords remove_coords : List Coord) :
    Except (PyErr × Grid) Grid :=
  match addCoordsGo board add_coords with
  | Except.error e => Except.error e
  | Except.ok board2 => removeCoordsGo board2 remove_coords

/-- Truthiness of `all(row)` in Python: every cell nonzero. -/
def rowFull (r : Row) : Bool :=
  r.all fun v => v ≠ 0

/-- The fresh row inserted at the top by `Board._update_line_filled`. -/
def emptyRow : Row :=
  [0, 0, 0, 0, 0, 0, 0, 0, 0, 0]

/-- One iteration of the `Board._update_line_filled` loop at row index
`i`: if the row is fully set, delete it, insert a fresh empty row at the
top and increment the score. -/
def lineFilledStep (board : Grid) (score : Nat) (i : Nat) : Grid × Nat :=
  if rowFull (board.getD i []) then (emptyRow :: board.eraseIdx i, score + 1)
  else (board, score)

/-- The `for row_idx in range(len(self.board_list))` loop of
`Board._update_line_filled`, over the listed indices. -/
def lineFilledGo (board : Grid) (score : Nat) : List Nat → Grid × Nat
  | [] => (board, score)
  | i :: rest =>
    let p := lineFilledStep board score i
    lineFilledGo p.1 p.2 rest

/-- Line-clear compaction (`Board._update_line_filled`): scan the
pre-loop row indices once, top to bottom. -/
def update_line_filled (board : Grid) (score : Nat) : Grid × Nat :=
  lineFilledGo board score (List.range board.length)

/-- The engine actions delivered to `Board.update_active_quad`
(values of `KEYCODE_ACTIONS` / keys of `Quad.actions`, plus QUIT). -/
inductive GameAction where
  | TRANSLATE_DOWN
  | TRANSLATE_LEFT
  | TRANSLATE_RIGHT
  | ROTATE_RIGHT
  | QUIT
deriving DecidableEq, Repr

/-- Dispatch through the `Quad.actions` dict for the four move actions
(QUIT never reaches the dict in `update_active_quad`). -/
def Quad.candidate (q : Quad) : GameAction → List Coord
  | .TRANSLATE_DOWN => if_translate_down q.coords
  | .TRANSLATE_LEFT => if_translate_left q.coords
  | .TRANSLATE_RIGHT => if_translate_right q.coords
  | .ROTATE_RIGHT => if_rotate_right q.coords
  | .QUIT => []

/-- The shared engine state guarded by `board_lock`: grid, optional
active piece, game-over latch and score. -/
structure GState where
  board : Grid
  active : Option Quad
  game_over : Bool
  score : Nat
deriving DecidableEq, Repr

/-- The initial engine state of `Board.__init__`. -/
def GState.init : GState :=
  { board := initBoard, active := none, game_over := false, score := 0 }

/-- Piece spawning (`Board.spawn_quad`), with the randomly drawn piece
passed in as `q`.  The active-piece slot is assigned before the
availability check; on an unavailable spawn the game-over latch is set
and the grid is left untouched.  An error result models a raised
exception (DoubleSpawn RuntimeError, or one escaping the grid update). -/
def spawn_quad (s : GState) (q : Quad) : Except GState GState :=
  if s.active.isSome then Except.error s
  else
    let s1 := { s with active := some q }
    if coords_available s1.board q.coords then
      match update_board_list s1.board q.coords [] with
      | Except.error e => Except.error { s1 with board := e.2 }
      | Except.ok b2 => Except.ok { s1 with board := b2 }
    else Except.ok { s1 with game_over := true }

/-- Action handling (`Board.update_active_quad`).  QUIT sets the
game-over latch unconditionally; with no active piece the call returns
immediately; otherwise the candidate coordinates for the action are
computed, the newly entered cells are checked for availability, and the
move is applied, or — for an unavailable downward move — the piece is
locked down and lines are compacted.  An error result models an
exception escaping the call, carrying the state at the raise. -/
def update_active_quad (s : GState) (action : GameAction) : Except GState GState :=
  if action = GameAction.QUIT then Except.ok { s with game_over := true }
  else
    match s.active with
    | none => Except.ok s
    | some q =>
      let updated_coords := q.candidate action
      let new_coords := updated_coords.filter fun c => c ∉ q.coords
      let remove_coords := q.coords.filter fun c => c ∉ updated_coords
      if coords_available s.board new_coords then
        match update_board_list s.board new_coords remove_coords with
        | Except.error e => Except.error { s with board := e.2 }
        | Except.ok b2 =>
          match q.update_coords updated_coords with
          | none => Except.error { s with board := b2 }
          | some q2 => Except.ok { s with board := b2, active := some q2 }
      else if action = GameAction.TRANSLATE_DOWN then
        let p := update_line_filled s.board s.score
        Except.ok { s with board := p.1, score := p.2, active := none }
      else Except.ok s

/-! ## Derived predicates and decidability instances used by the theorems -/

/-- A single coordinate passes all three checks of
`Board._coords_available`: nonnegative on both axes, within the matrix
extent on the high side, and its cell is free (zero). -/
def coordFree (board : Grid) (c : Coord) : Prop :=
  0 ≤ c.1 ∧ 0 ≤ c.2 ∧ c.2 < (board.length : Int) ∧
  c.1 < (((board.getD c.2.toNat []).length : Int)) ∧
  (board.getD c.2.toNat []).getD c.1.toNat 1 = 0

instance (board : Grid) (c : Coord) : Decidable (coordFree board c) := by
  unfold coordFree
  infer_instance

instance {ε α : Type} [DecidableEq ε] [DecidableEq α] : DecidableEq (Except ε α) :=
  fun a b =>
    match a, b with
    | .ok x, .ok y =>
      if h : x = y then isTrue (by rw [h])
      else isFalse (by intro hc; cases hc; exact h rfl)
    | .error x, .error y =>
      if h : x = y then isTrue (by rw [h])
      else isFalse (by intro hc; cases hc; exact h rfl)
    | .ok _, .error _ => isFalse (by intro hc; cases hc)
    | .error _, .ok _ => isFalse (by intro hc; cases hc)

/-- An engine state with the game-over latch set but a piece still
active (the situation `spawn_quad` leaves behind on a failed spawn, or
QUIT with a piece active): an empty board except for the cells of an
active LINE piece at spawn. -/
def gameOverActiveState : GState :=
  { board := [0, 0, 0, 1, 1, 1, 1, 0, 0, 0] :: List.replicate 19 emptyRow,
    active := some { type := QuadType.LINE, coords := [(3, 0), (4, 0), (5, 0), (6, 0)] },
    game_over := true,
    score := 0 }

/-- A fully free row: every cell zero (falsy). -/
def rowFree (r : Row) : Bool :=
  r.all fun v => v == 0

/-- A coordinate that addresses an existing cell of the grid with
nonnegative indices. -/
def inRange (board : Grid) (c : Coord) : Prop :=
  0 ≤ c.1 ∧ 0 ≤ c.2 ∧ c.2 < (board.length : Int) ∧
  c.1 < ((board.getD c.2.toNat []).length : Int)

instance (board : Grid) (c : Coord) : Decidable (inRange board c) := by
  unfold inRange
  infer_instance

/-- The value stored at a coordinate (0 when out of range). -/
def cellVal (board : Grid) (c : Coord) : Nat :=
  (board.getD c.2.toNat []).getD c.1.toNat 0

/-- The reference dimensions of the board built by `Board.__init__`:
20 rows of 10 cells. -/
def dims20x10 (b : Grid) : Prop :=
  b.length = 20 ∧ ∀ r ∈ b, r.length = 10

instance (b : Grid) : Decidable (dims20x10 b) := by
  unfold dims20x10
  infer_instance

/-- The board held by an engine result, whether the call returned or
raised (Python mutates the one shared list in place either way). -/
def exceptBoard (r : Except GState GState) : Grid :=
  match r with
  | .ok t => t.board
  | .error t => t.board

/-- The board held by a `_update_board_list` result, whether the call
returned or raised. -/
def ublBoard (r : Except (PyErr × Grid) Grid) : Grid :=
  match r with
  | .ok b => b
  | .error e => e.2


/-! ## Helper lemmas about the Python-indexing model -/

/-- Python indexing with a nonnegative index is plain `List.get?`. -/
theorem pyGet_nonneg {α : Type} (l : List α) (i : Int) (h : 0 ≤ i) :
    pyGet l i = l.get? i.toNat := by
  unfold pyGet pyIdx
  rw [if_neg (not_lt.mpr h)]
  by_cases h2 : i < (l.length : Int)
  · rw [if_pos h2]
    rfl
  · rw [if_neg h2]
    have hnone : l.get? i.toNat = none := by
      rw [List.get?_eq_none]; omega
    rw [hnone]
    rfl

/-- Python item assignment with a nonnegative in-range index is
`List.set`. -/
theorem pySet_nonneg {α : Type} (l : List α) (i : Int) (v : α)
    (h : 0 ≤ i) (h2 : i < (l.length : Int)) :
    pySet l i v = some (l.set i.toNat v) := by
  unfold pySet pyIdx
  rw [if_neg (not_lt.mpr h), if_pos h2]
  rfl

/-- An in-range `get?` returns `some` of the `getD` value. -/
theorem get?_eq_some_getD {α : Type} (l : List α) (n : Nat) (d : α)
    (h : n < l.length) : l.get? n = some (l.getD n d) := by
  rw [List.get?_eq_get h, List.getD_eq_get?, List.get?_eq_get h]
  rfl

/-- A `getD` value at an in-range index is a member of the list. -/
theorem getD_mem_of_lt {α : Type} (l : List α) (n : Nat) (d : α)
    (h : n < l.length) : l.getD n d ∈ l :=
  List.get?_mem (get?_eq_some_getD l n d h)

/-! ## C3: availability check -/

theorem coordsAvailableGo_spec (board : Grid) (cs : List Coord) :
    (coordsAvailableGo board cs).getD false = true ↔ ∀ c ∈ cs, coordFree board c := by
  induction cs with
  | nil => simp [coordsAvailableGo]
  | cons c rest ih =>
    unfold coordsAvailableGo
    by_cases hneg : c.1 < 0 ∨ c.2 < 0
    · rw [if_pos hneg]
      simp only [Option.getD_some]
      constructor
      · intro h; exact absurd h (by simp)
      · intro h
        have hc := h c (List.mem_cons_self c rest)
        exact absurd hneg (by push_neg; exact ⟨hc.1, hc.2.1⟩)
    · rw [if_neg hneg]
      push_neg at hneg
      obtain ⟨hx, hy⟩ := hneg
      by_cases hyb : c.2 < (board.length : Int)
      · have hylt : c.2.toNat < board.length := by omega
        have hrow : pyGet board c.2 = some (board.getD c.2.toNat []) := by
          rw [pyGet_nonneg _ _ hy]
          exact get?_eq_some_getD board c.2.toNat [] hylt
        by_cases hxb : c.1 < (((board.getD c.2.toNat []).length : Int))
        · have hxlt : c.1.toNat < (board.getD c.2.toNat []).length := by omega
          have hcell : pyGet (board.getD c.2.toNat []) c.1 =
              some ((board.getD c.2.toNat []).getD c.1.toNat 1) := by
            rw [pyGet_nonneg _ _ hx]
            exact get?_eq_some_getD _ c.1.toNat 1 hxlt
          by_cases hv : (board.getD c.2.toNat []).getD c.1.toNat 1 = 0
          · simp only [hrow, hcell]
            rw [if_neg (by simpa using hv)]
            rw [ih]
            constructor
            · intro h c' hc'
              rcases List.mem_cons.mp hc' with h1 | h2
              · subst h1; exact ⟨hx, hy, hyb, hxb, hv⟩
              · exact h c' h2
            · intro h c' hc'
              exact h c' (List.mem_cons_of_mem c hc')
          · simp only [hrow, hcell]
            rw [if_pos (by simpa using hv)]
            simp only [Option.getD_some]
            constructor
            · intro h; exact absurd h (by simp)
            · intro h
              exact absurd (h c (List.mem_cons_self c rest)).2.2.2.2 hv
        · have hcell : pyGet (board.getD c.2.toNat []) c.1 = none := by
            rw [pyGet_nonneg _ _ hx, List.get?_eq_none]
            omega
          simp only [hrow, hcell, Option.getD_none]
          constructor
          · intro h; exact absurd h (by simp)
          · intro h
            exact absurd (h c (List.mem_cons_self c rest)).2.2.2.1 hxb
      · have hrow : pyGet board c.2 = none := by
          rw [pyGet_nonneg _ _ hy, List.get?_eq_none]
          omega
        simp only [hrow, Option.getD_none]
        constructor
        · intro h; exact absurd h (by simp)
        · intro h
          exact absurd (h c (List.mem_cons_self c rest)).2.2.1 hyb

/-- C3: `Board._coords_available` is a total boolean predicate (it never
propagates an exception), and it returns `true` exactly when every
coordinate in the list is nonnegative on both axes, within the matrix
extent on the high side, and lands on a free cell; equivalently it
returns `false` as soon as any coordinate fails one of the three checks
(an out-of-range access raises IndexError inside `bounds_manager`,
which swallows it and the function returns `False`). -/
theorem C3_coords_available_iff (board : Grid) (cs : List Coord) :
    coords_available board cs = true ↔ ∀ c ∈ cs, coordFree board c :=
  coordsAvailableGo_spec board cs

/-- Witness for C3 at concrete inputs: a mixed in-range free list is
available, and applying the theorem also at an occupied input shows the
check rejects it. -/
theorem C3_coords_available_iff_witness :
    coords_available [[0, 1], [0, 0]] [(0, 0), (0, 1), (1, 1)] = true ∧
    coords_available [[0, 1], [0, 0]] [(1, 0)] ≠ true :=
  ⟨(C3_coords_available_iff [[0, 1], [0, 0]] [(0, 0), (0, 1), (1, 1)]).mpr (by decide),
   fun h => by
    have := (C3_coords_available_iff [[0, 1], [0, 0]] [(1, 0)]).mp h
    exact absurd (this (1, 0) (by decide)) (by decide)⟩

/-! ## C6: update_coords accepts exactly the four candidates -/

/-- C6: `Quad.update_coords` succeeds exactly when the proposed
coordinate list equals one of the four move candidates computed at the
piece's current position (in which case the piece's coordinates become
the proposed list and its type is unchanged), and fails — the source
raises ValueError — for every other coordinate list.  This holds for
every piece position, hence in particular for every reachable one. -/
theorem C6_update_coords_iff (q : Quad) (u : List Coord) :
    ((∃ q2, q.update_coords u = some q2) ↔
      (u = if_translate_down q.coords ∨ u = if_translate_left q.coords ∨
       u = if_translate_right q.coords ∨ u = if_rotate_right q.coords)) ∧
    (∀ q2, q.update_coords u = some q2 → q2.coords = u ∧ q2.type = q.type) := by
  unfold Quad.update_coords
  split_ifs with h1 h2 h3 h4
  · refine ⟨⟨fun _ => Or.inl h1, fun _ => ⟨_, rfl⟩⟩, ?_⟩
    intro q2 h
    cases h
    exact ⟨rfl, rfl⟩
  · refine ⟨⟨fun _ => Or.inr (Or.inl h2), fun _ => ⟨_, rfl⟩⟩, ?_⟩
    intro q2 h
    cases h
    exact ⟨rfl, rfl⟩
  · refine ⟨⟨fun _ => Or.inr (Or.inr (Or.inl h3)), fun _ => ⟨_, rfl⟩⟩, ?_⟩
    intro q2 h
    cases h
    exact ⟨rfl, rfl⟩
  · refine ⟨⟨fun _ => Or.inr (Or.inr (Or.inr h4)), fun _ => ⟨_, rfl⟩⟩, ?_⟩
    intro q2 h
    cases h
    exact ⟨rfl, rfl⟩
  · constructor
    · constructor
      · rintro ⟨q2, h⟩
        exact h.elim
      · rintro (h | h | h | h)
        · exact absurd h h1
        · exact absurd h h2
        · exact absurd h h3
        · exact absurd h h4
    · intro q2 h
      exact h.elim

/-- Witness for C6: the down candidate of a freshly spawned LINE piece
is accepted, and an unrelated coordinate list is rejected. -/
theorem C6_update_coords_iff_witness :
    (∃ q2, (Quad.init QuadType.LINE).update_coords [(3, 1), (4, 1), (5, 1), (6, 1)] = some q2) ∧
    ¬ ∃ q2, (Quad.init QuadType.LINE).update_coords [(0, 0), (0, 1), (0, 2), (0, 3)] = some q2 :=
  ⟨(C6_update_coords_iff (Quad.init QuadType.LINE) [(3, 1), (4, 1), (5, 1), (6, 1)]).1.mpr
      (by decide),
   fun h => absurd
      ((C6_update_coords_iff (Quad.init QuadType.LINE) [(0, 0), (0, 1), (0, 2), (0, 3)]).1.mp h)
      (by decide)⟩

/-! ## C8: rotation is a 4-cycle on SQUARE -/

/-- C8: starting from the SQUARE spawn coordinates and applying the
rotate-right candidate function four times, adopting the candidate each
time, returns exactly the starting coordinate list (the rounded
centroid makes the intermediate positions drift, but the fourth
application comes back to the start). -/
theorem C8_square_rotate_four_cycle :
    if_rotate_right (if_rotate_right (if_rotate_right (if_rotate_right
      (QUAD_SPAWNS QuadType.SQUARE)))) = QUAD_SPAWNS QuadType.SQUARE := by
  decide

/-! ## C2: no-op guard of update_active_quad -/

/-- C2 (amended part): with no active piece, any movement action (any
action other than QUIT) is a no-op: `update_active_quad` returns
without error and the state is unchanged. -/
theorem C2_noop_when_no_active_piece (s : GState) (a : GameAction)
    (ha : a ≠ GameAction.QUIT) (h : s.active = none) :
    update_active_quad s a = Except.ok s := by
  unfold update_active_quad
  rw [if_neg ha, h]

/-- Witness for C2 at the initial state. -/
theorem C2_noop_when_no_active_piece_witness :
    update_active_quad GState.init GameAction.TRANSLATE_DOWN = Except.ok GState.init :=
  C2_noop_when_no_active_piece GState.init GameAction.TRANSLATE_DOWN (by decide) rfl

/-- Counterexample to C2 as stated: with the game-over flag set but an
active piece present, TRANSLATE_LEFT is not a no-op — the grid and the
active piece both change (the source checks only for the absence of an
active piece, never the game-over flag). -/
theorem C2_game_over_alone_not_noop :
    update_active_quad gameOverActiveState GameAction.TRANSLATE_LEFT =
      Except.ok
        { board := [0, 0, 1, 1, 1, 1, 0, 0, 0, 0] :: List.replicate 19 emptyRow,
          active := some { type := QuadType.LINE, coords := [(2, 0), (3, 0), (4, 0), (5, 0)] },
          game_over := true,
          score := 0 } ∧
    ({ board := [0, 0, 1, 1, 1, 1, 0, 0, 0, 0] :: List.replicate 19 emptyRow,
       active := some { type := QuadType.LINE, coords := [(2, 0), (3, 0), (4, 0), (5, 0)] },
       game_over := true,
       score := 0 } : GState) ≠ gameOverActiveState := by
  constructor
  · decide
  · decide

/-! ## C10: spawn into an occupied spawn region -/

/-- C10: when the drawn piece's spawn coordinates are unavailable,
`spawn_quad` sets the game-over latch and leaves the grid and the score
unchanged, but the active-piece slot keeps holding the newly drawn
piece (it was assigned before the availability check and is never
cleared), so the piece is not absent after this game-over. -/
theorem C10_spawn_unavailable (s : GState) (q : Quad)
    (hact : s.active = none)
    (hun : coords_available s.board q.coords = false) :
    spawn_quad s q =
      Except.ok { board := s.board, active := some q, game_over := true, score := s.score } ∧
    (some q ≠ (none : Option Quad)) := by
  refine ⟨?_, by simp⟩
  unfold spawn_quad
  rw [hact]
  simp [hun]

/-- Witness for C10: spawning a LINE piece over a fully set top row
latches game-over, keeps the grid and score, and keeps the piece. -/
theorem C10_spawn_unavailable_witness :
    spawn_quad
      { board := List.replicate 10 1 :: List.replicate 19 emptyRow,
        active := none, game_over := false, score := 2 }
      (Quad.init QuadType.LINE) =
      Except.ok
        { board := List.replicate 10 1 :: List.replicate 19 emptyRow,
          active := some (Quad.init QuadType.LINE), game_over := true, score := 2 } :=
  (C10_spawn_unavailable
    { board := List.replicate 10 1 :: List.replicate 19 emptyRow,
      active := none, game_over := false, score := 2 }
    (Quad.init QuadType.LINE) rfl (by decide)).1

/-! ## C5: compaction of a single full row -/

theorem lineFilledStep_no_fire (b : Grid) (s : Nat) (i : Nat)
    (h : rowFull (b.getD i []) = false) :
    lineFilledStep b s i = (b, s) := by
  unfold lineFilledStep
  rw [if_neg (by rw [h]; simp)]

theorem lineFilledStep_fire (b : Grid) (s : Nat) (i : Nat)
    (h : rowFull (b.getD i []) = true) :
    lineFilledStep b s i = (emptyRow :: b.eraseIdx i, s + 1) := by
  unfold lineFilledStep
  rw [if_pos h]

theorem lineFilledGo_append (b : Grid) (s : Nat) (l1 l2 : List Nat) :
    lineFilledGo b s (l1 ++ l2) =
      lineFilledGo (lineFilledGo b s l1).1 (lineFilledGo b s l1).2 l2 := by
  induction l1 generalizing b s with
  | nil => rfl
  | cons i rest ih =>
    simp only [List.cons_append, lineFilledGo]
    exact ih _ _

theorem lineFilledGo_no_fire (idxs : List Nat) (b : Grid) (s : Nat)
    (h : ∀ i ∈ idxs, rowFull (b.getD i []) = false) :
    lineFilledGo b s idxs = (b, s) := by
  induction idxs with
  | nil => rfl
  | cons i rest ih =>
    unfold lineFilledGo
    rw [lineFilledStep_no_fire b s i (h i (List.mem_cons_self i rest))]
    exact ih fun j hj => h j (List.mem_cons_of_mem i hj)

/-- A free nonempty row is not full. -/
theorem rowFull_of_rowFree (r : Row) (hf : rowFree r = true) (hne : r ≠ []) :
    rowFull r = false := by
  cases r with
  | nil => exact absurd rfl hne
  | cons v t =>
    unfold rowFree at hf
    unfold rowFull
    simp only [List.all_cons, Bool.and_eq_true, beq_iff_eq] at hf
    simp [hf.1]

theorem getD_append_self_length (pre : Grid) (x : Row) (post : Grid) (d : Row) :
    (pre ++ x :: post).getD pre.length d = x := by
  rw [List.getD_append_right pre (x :: post) d pre.length le_rfl]
  simp

theorem eraseIdx_append_self_length (pre : Grid) (x : Row) (post : Grid) :
    (pre ++ x :: post).eraseIdx pre.length = pre ++ post := by
  induction pre with
  | nil => rfl
  | cons a t ih =>
    simp only [List.cons_append, List.length_cons, List.eraseIdx_cons_succ]
    rw [ih]

/-- C5: on a grid made of a single fully occupied row surrounded by
free (nonempty) rows, `Board._update_line_filled` removes that row,
inserts one fresh fully-free row at index 0, preserves the relative
order of the remaining rows, keeps the row count, and increments the
score by exactly 1. -/
theorem C5_single_full_row (pre post : Grid) (s : Nat) (full : Row)
    (hfull : rowFull full = true)
    (hpre : ∀ r ∈ pre, rowFree r = true ∧ r ≠ [])
    (hpost : ∀ r ∈ post, rowFree r = true ∧ r ≠ []) :
    update_line_filled (pre ++ full :: post) s = (emptyRow :: (pre ++ post), s + 1) ∧
    (emptyRow :: (pre ++ post)).length = (pre ++ full :: post).length := by
  have hlen : (pre ++ full :: post).length = pre.length + 1 + post.length := by
    simp [List.length_append]
    omega
  constructor
  · unfold update_line_filled
    rw [hlen, List.range_add, List.range_succ, List.append_assoc]
    rw [lineFilledGo_append]
    have seg1 : lineFilledGo (pre ++ full :: post) s (List.range pre.length) =
        (pre ++ full :: post, s) := by
      apply lineFilledGo_no_fire
      intro i hi
      rw [List.mem_range] at hi
      rw [List.getD_append _ _ _ i hi]
      have hm := hpre (pre.getD i []) (getD_mem_of_lt pre i [] hi)
      exact rowFull_of_rowFree _ hm.1 hm.2
    rw [seg1]
    rw [lineFilledGo_append]
    have seg2 : lineFilledGo (pre ++ full :: post) s [pre.length] =
        (emptyRow :: (pre ++ post), s + 1) := by
      unfold lineFilledGo
      rw [lineFilledStep_fire _ _ _ (by rw [getD_append_self_length]; exact hfull)]
      rw [eraseIdx_append_self_length]
      rfl
    rw [seg2]
    apply lineFilledGo_no_fire
    intro i hi
    simp only [List.mem_map, List.mem_range] at hi
    obtain ⟨t, ht, rfl⟩ := hi
    have hidx : pre.length + 1 + t = (pre.length + t) + 1 := by omega
    have hshift : (emptyRow :: (pre ++ post)).getD (pre.length + 1 + t) [] = post.getD t [] := by
      rw [hidx, List.getD_cons_succ,
        List.getD_append_right pre post [] (pre.length + t) (Nat.le_add_right _ _)]
      simp
    rw [hshift]
    have hm := hpost (post.getD t []) (getD_mem_of_lt post t [] ht)
    exact rowFull_of_rowFree _ hm.1 hm.2
  · simp [List.length_append]
    omega

/-- Witness for C5: a 3-row grid whose middle row is full compacts to a
fresh top row above the two surviving rows, score 5 becoming 6. -/
theorem C5_single_full_row_witness :
    update_line_filled ([emptyRow] ++ [1, 1, 1, 1, 1, 1, 1, 1, 1, 1] :: [emptyRow]) 5 =
      (emptyRow :: ([emptyRow] ++ [emptyRow]), 5 + 1) ∧
    (emptyRow :: ([emptyRow] ++ [emptyRow])).length =
      ([emptyRow] ++ [1, 1, 1, 1, 1, 1, 1, 1, 1, 1] :: [emptyRow]).length :=
  C5_single_full_row [emptyRow] [emptyRow] 5 [1, 1, 1, 1, 1, 1, 1, 1, 1, 1]
    (by decide) (by decide) (by decide)

/-! ## C4: lock-down on an unavailable downward move -/

/-- C4: with an active piece whose down candidate's newly entered cells
are unavailable, handling TRANSLATE_DOWN performs lock-down: the active
piece becomes absent, nothing is removed from the grid (the board
handed to `_update_line_filled` is exactly the pre-move grid, with the
piece's cells still set in it), and the resulting grid and score are
those produced by `_update_line_filled`; in particular when no row is
complete the piece's cells survive unchanged in the final grid. -/
theorem C4_lockdown (s : GState) (q : Quad)
    (hq : s.active = some q)
    (hun : coords_available s.board
      ((if_translate_down q.coords).filter fun c => c ∉ q.coords) = false) :
    update_active_quad s GameAction.TRANSLATE_DOWN =
      Except.ok { board := (update_line_filled s.board s.score).1,
                  active := none,
                  game_over := s.game_over,
                  score := (update_line_filled s.board s.score).2 } ∧
    ((∀ r ∈ s.board, rowFull r = false) →
      (update_line_filled s.board s.score).1 = s.board) := by
  constructor
  · unfold update_active_quad
    rw [if_neg (by decide)]
    simp only [hq, Quad.candidate]
    rw [if_neg (by rw [hun]; simp)]
    simp
  · intro hnf
    unfold update_line_filled
    rw [lineFilledGo_no_fire]
    intro i hi
    rw [List.mem_range] at hi
    exact hnf (s.board.getD i []) (getD_mem_of_lt s.board i [] hi)

/-- Witness for C4: a LINE piece resting on the bottom row of an
otherwise empty board locks down; no row is complete, so the grid is
untouched and the piece's cells stay set. -/
theorem C4_lockdown_witness :
    update_active_quad
      { board := List.replicate 19 emptyRow ++ [[0, 0, 0, 1, 1, 1, 1, 0, 0, 0]],
        active := some { type := QuadType.LINE,
                         coords := [(3, 19), (4, 19), (5, 19), (6, 19)] },
        game_over := false, score := 0 }
      GameAction.TRANSLATE_DOWN =
      Except.ok
        { board := (update_line_filled
            (List.replicate 19 emptyRow ++ [[0, 0, 0, 1, 1, 1, 1, 0, 0, 0]]) 0).1,
          active := none,
          game_over := false,
          score := (update_line_filled
            (List.replicate 19 emptyRow ++ [[0, 0, 0, 1, 1, 1, 1, 0, 0, 0]]) 0).2 } ∧
    (update_line_filled
        (List.replicate 19 emptyRow ++ [[0, 0, 0, 1, 1, 1, 1, 0, 0, 0]]) 0).1 =
      List.replicate 19 emptyRow ++ [[0, 0, 0, 1, 1, 1, 1, 0, 0, 0]] :=
  ⟨(C4_lockdown _ _ rfl (by decide)).1,
   (C4_lockdown
      { board := List.replicate 19 emptyRow ++ [[0, 0, 0, 1, 1, 1, 1, 0, 0, 0]],
        active := some { type := QuadType.LINE,
                         coords := [(3, 19), (4, 19), (5, 19), (6, 19)] },
        game_over := false, score := 0 }
      { type := QuadType.LINE, coords := [(3, 19), (4, 19), (5, 19), (6, 19)] }
      rfl (by decide)).2 (by decide)⟩

/-! ## C7: board mutation under precondition violations -/

theorem getD_set_self {α : Type} (l : List α) (i : Nat) (a d : α) (h : i < l.length) :
    (l.set i a).getD i d = a := by
  rw [List.getD_eq_get?, List.get?_set_eq, List.get?_eq_get h]
  rfl

theorem getD_set_other {α : Type} (l : List α) (i j : Nat) (a d : α) (h : i ≠ j) :
    (l.set i a).getD j d = l.getD j d := by
  rw [List.getD_eq_get?, List.getD_eq_get?, List.get?_set_ne _ _ h]

theorem boardSetCoord_eq (b : Grid) (c : Coord) (v : Nat)
    (h1 : 0 ≤ c.1) (h2 : 0 ≤ c.2) (h3 : c.2 < (b.length : Int))
    (h4 : c.1 < ((b.getD c.2.toNat []).length : Int)) :
    boardSetCoord b c v =
      some (b.set c.2.toNat ((b.getD c.2.toNat []).set c.1.toNat v)) := by
  unfold boardSetCoord
  have hylt : c.2.toNat < b.length := by omega
  have hrow : pyGet b c.2 = some (b.getD c.2.toNat []) := by
    rw [pyGet_nonneg _ _ h2]
    exact get?_eq_some_getD _ _ _ hylt
  simp only [hrow]
  have hset : pySet (b.getD c.2.toNat []) c.1 v =
      some ((b.getD c.2.toNat []).set c.1.toNat v) :=
    pySet_nonneg _ _ _ h1 h4
  simp only [hset]
  exact pySet_nonneg _ _ _ h2 h3

/-- Writing one cell does not change which coordinates are in range. -/
theorem inRange_set (b : Grid) (c : Coord) (v : Nat)
    (hylt : c.2.toNat < b.length) (c' : Coord) :
    inRange (b.set c.2.toNat ((b.getD c.2.toNat []).set c.1.toNat v)) c' ↔
      inRange b c' := by
  unfold inRange
  rw [List.length_set]
  by_cases hy : c.2.toNat = c'.2.toNat
  · rw [← hy, getD_set_self _ _ _ _ hylt, List.length_set]
  · rw [getD_set_other _ _ _ _ _ hy]

/-- The value of any cell after writing one cell: the written value at
that cell's position, the old value elsewhere. -/
theorem cellVal_set (b : Grid) (c : Coord) (v : Nat)
    (hylt : c.2.toNat < b.length)
    (hxlt : c.1.toNat < (b.getD c.2.toNat []).length) (c' : Coord) :
    cellVal (b.set c.2.toNat ((b.getD c.2.toNat []).set c.1.toNat v)) c' =
      if c'.2.toNat = c.2.toNat ∧ c'.1.toNat = c.1.toNat then v
      else cellVal b c' := by
  unfold cellVal
  by_cases hy : c'.2.toNat = c.2.toNat
  · rw [hy, getD_set_self _ _ _ _ hylt]
    by_cases hx : c'.1.toNat = c.1.toNat
    · rw [hx, getD_set_self _ _ _ _ hxlt, if_pos ⟨rfl, rfl⟩]
    · rw [getD_set_other _ _ _ _ _ fun he => hx he.symm, if_neg fun hcon => hx hcon.2]
  · rw [getD_set_other _ _ _ _ _ fun he => hy he.symm, if_neg fun hcon => hy hcon.1]

theorem addCoordsGo_error_of_occupied (add : List Coord) (b : Grid) (c : Coord)
    (hc : c ∈ add) (hin : ∀ c' ∈ add, inRange b c') (hocc : cellVal b c ≠ 0) :
    ∃ b2, addCoordsGo b add = Except.error (PyErr.runtimeError, b2) := by
  induction add generalizing b with
  | nil => cases hc
  | cons a rest ih =>
    obtain ⟨h1, h2, h3, h4⟩ := hin a (List.mem_cons_self a rest)
    have hylt : a.2.toNat < b.length := by omega
    have hxlt : a.1.toNat < (b.getD a.2.toNat []).length := by omega
    have hrow : pyGet b a.2 = some (b.getD a.2.toNat []) := by
      rw [pyGet_nonneg _ _ h2]
      exact get?_eq_some_getD _ _ _ hylt
    have hcell : pyGet (b.getD a.2.toNat []) a.1 = some (cellVal b a) := by
      rw [pyGet_nonneg _ _ h1]
      exact get?_eq_some_getD _ _ _ hxlt
    unfold addCoordsGo
    simp only [hrow, hcell]
    by_cases hv : cellVal b a = 0
    · rw [if_neg (by simp [hv])]
      rw [boardSetCoord_eq b a 1 h1 h2 h3 h4]
      have hcr : c ∈ rest := by
        rcases List.mem_cons.mp hc with rfl | h
        · exact absurd hv hocc
        · exact h
      apply ih _ hcr
      · intro c' hc'
        exact (inRange_set b a 1 hylt c').mpr (hin c' (List.mem_cons_of_mem a hc'))
      · rw [cellVal_set b a 1 hylt hxlt c]
        by_cases heq : c.2.toNat = a.2.toNat ∧ c.1.toNat = a.1.toNat
        · rw [if_pos heq]
          exact one_ne_zero
        · rw [if_neg heq]
          exact hocc
    · rw [if_pos (by simp [hv])]
      exact ⟨b, rfl⟩

theorem removeCoordsGo_error_of_free (rem : List Coord) (b : Grid) (c : Coord)
    (hc : c ∈ rem) (hin : ∀ c' ∈ rem, inRange b c') (hfree : cellVal b c = 0) :
    ∃ b2, removeCoordsGo b rem = Except.error (PyErr.runtimeError, b2) := by
  induction rem generalizing b with
  | nil => cases hc
  | cons a rest ih =>
    obtain ⟨h1, h2, h3, h4⟩ := hin a (List.mem_cons_self a rest)
    have hylt : a.2.toNat < b.length := by omega
    have hxlt : a.1.toNat < (b.getD a.2.toNat []).length := by omega
    have hrow : pyGet b a.2 = some (b.getD a.2.toNat []) := by
      rw [pyGet_nonneg _ _ h2]
      exact get?_eq_some_getD _ _ _ hylt
    have hcell : pyGet (b.getD a.2.toNat []) a.1 = some (cellVal b a) := by
      rw [pyGet_nonneg _ _ h1]
      exact get?_eq_some_getD _ _ _ hxlt
    unfold removeCoordsGo
    simp only [hrow, hcell]
    by_cases hv : cellVal b a = 0
    · rw [if_pos hv]
      exact ⟨b, rfl⟩
    · rw [if_neg hv]
      rw [boardSetCoord_eq b a 0 h1 h2 h3 h4]
      have hcr : c ∈ rest := by
        rcases List.mem_cons.mp hc with rfl | h
        · exact absurd hfree hv
        · exact h
      apply ih _ hcr
      · intro c' hc'
        exact (inRange_set b a 0 hylt c').mpr (hin c' (List.mem_cons_of_mem a hc'))
      · rw [cellVal_set b a 0 hylt hxlt c]
        by_cases heq : c.2.toNat = a.2.toNat ∧ c.1.toNat = a.1.toNat
        · rw [if_pos heq]
        · rw [if_neg heq]
          exact hfree

/-- C7 (amended part): `Board._update_board_list` does signal the
violation — asked to set an already-set in-range cell, or (with no adds
pending) to unset an already-unset in-range cell, it raises
RuntimeError rather than completing silently. -/
theorem C7_raises_on_violation (b : Grid) (add rem : List Coord) (c : Coord) :
    (c ∈ add → (∀ c' ∈ add, inRange b c') → cellVal b c ≠ 0 →
      ∃ b2, update_board_list b add rem = Except.error (PyErr.runtimeError, b2)) ∧
    (c ∈ rem → (∀ c' ∈ rem, inRange b c') → cellVal b c = 0 →
      ∃ b2, update_board_list b [] rem = Except.error (PyErr.runtimeError, b2)) := by
  constructor
  · intro hc hin hocc
    obtain ⟨b2, hb2⟩ := addCoordsGo_error_of_occupied add b c hc hin hocc
    refine ⟨b2, ?_⟩
    unfold update_board_list
    rw [hb2]
  · intro hc hin hfree
    obtain ⟨b2, hb2⟩ := removeCoordsGo_error_of_free rem b c hc hin hfree
    refine ⟨b2, ?_⟩
    unfold update_board_list addCoordsGo
    exact hb2

/-- Witness for C7's amended theorem at concrete inputs: adding over an
occupied cell raises, and removing a free cell raises. -/
theorem C7_raises_on_violation_witness :
    (∃ b2, update_board_list [[0, 1]] [(0, 0), (1, 0)] [] =
      Except.error (PyErr.runtimeError, b2)) ∧
    (∃ b2, update_board_list [[0, 1]] [] [(0, 0)] =
      Except.error (PyErr.runtimeError, b2)) :=
  ⟨(C7_raises_on_violation [[0, 1]] [(0, 0), (1, 0)] [] (1, 0)).1
      (by decide) (by decide) (by decide),
   (C7_raises_on_violation [[0, 1]] [] [(0, 0)] (0, 0)).2
      (by decide) (by decide) (by decide)⟩

/-- Counterexample to C7 as stated: the failed call does raise, but the
grid IS left changed — the first add coordinate was already written
when the second one hit the violation, and Python's in-place mutation
keeps that write. -/
theorem C7_failed_call_mutates :
    update_board_list [[0, 1]] [(0, 0), (1, 0)] [] =
      Except.error (PyErr.runtimeError, [[1, 1]]) ∧
    ([[1, 1]] : Grid) ≠ [[0, 1]] := by
  constructor
  · decide
  · decide

/-! ## C1: board dimensions -/

theorem pyGet_mem {α : Type} (l : List α) (i : Int) (a : α)
    (h : pyGet l i = some a) : a ∈ l := by
  unfold pyGet at h
  rcases Option.bind_eq_some.mp h with ⟨n, hn, hget⟩
  exact List.get?_mem hget

theorem pySet_shape {α : Type} (l : List α) (i : Int) (v : α) (l2 : List α)
    (h : pySet l i v = some l2) : ∃ n, l2 = l.set n v := by
  unfold pySet at h
  rcases Option.map_eq_some'.mp h with ⟨n, hn, heq⟩
  exact ⟨n, heq.symm⟩

theorem dims_boardSetCoord (b b2 : Grid) (c : Coord) (v : Nat)
    (h : boardSetCoord b c v = some b2) (hd : dims20x10 b) : dims20x10 b2 := by
  unfold boardSetCoord at h
  cases hrow : pyGet b c.2 with
  | none => rw [hrow] at h; exact absurd h (by simp)
  | some row =>
    simp only [hrow] at h
    cases hset : pySet row c.1 v with
    | none => simp only [hset] at h; exact absurd h (by simp)
    | some row2 =>
      simp only [hset] at h
      obtain ⟨m, rfl⟩ := pySet_shape row c.1 v row2 hset
      obtain ⟨n, rfl⟩ := pySet_shape b c.2 _ b2 h
      constructor
      · rw [List.length_set]
        exact hd.1
      · intro r hr
        rcases List.mem_or_eq_of_mem_set hr with hmem | rfl
        · exact hd.2 r hmem
        · rw [List.length_set]
          exact hd.2 row (pyGet_mem b c.2 row hrow)

theorem dims_addCoordsGo (add : List Coord) (b : Grid) (hd : dims20x10 b) :
    dims20x10 (ublBoard (addCoordsGo b add)) := by
  induction add generalizing b with
  | nil => exact hd
  | cons a rest ih =>
    unfold addCoordsGo
    cases hrow : pyGet b a.2 with
    | none => simp only [hrow]; exact hd
    | some row =>
      simp only [hrow]
      cases hcell : pyGet row a.1 with
      | none => simp only [hcell]; exact hd
      | some v =>
        simp only [hcell]
        by_cases hv : v ≠ 0
        · rw [if_pos hv]
          exact hd
        · rw [if_neg hv]
          cases hbs : boardSetCoord b a 1 with
          | none => simp only [hbs]; exact hd
          | some b2 =>
            simp only [hbs]
            exact ih b2 (dims_boardSetCoord b b2 a 1 hbs hd)

theorem dims_removeCoordsGo (rem : List Coord) (b : Grid) (hd : dims20x10 b) :
    dims20x10 (ublBoard (removeCoordsGo b rem)) := by
  induction rem generalizing b with
  | nil => exact hd
  | cons a rest ih =>
    unfold removeCoordsGo
    cases hrow : pyGet b a.2 with
    | none => simp only [hrow]; exact hd
    | some row =>
      simp only [hrow]
      cases hcell : pyGet row a.1 with
      | none => simp only [hcell]; exact hd
      | some v =>
        simp only [hcell]
        by_cases hv : v = 0
        · rw [if_pos hv]
          exact hd
        · rw [if_neg hv]
          cases hbs : boardSetCoord b a 0 with
          | none => simp only [hbs]; exact hd
          | some b2 =>
            simp only [hbs]
            exact ih b2 (dims_boardSetCoord b b2 a 0 hbs hd)

theorem dims_update_board_list (b : Grid) (add rem : List Coord) (hd : dims20x10 b) :
    dims20x10 (ublBoard (update_board_list b add rem)) := by
  unfold update_board_list
  cases hadd : addCoordsGo b add with
  | error e =>
    simp only []
    have h2 := dims_addCoordsGo add b hd
    rw [hadd] at h2
    exact h2
  | ok b2 =>
    simp only []
    have h2 := dims_addCoordsGo add b hd
    rw [hadd] at h2
    exact dims_removeCoordsGo rem b2 h2

theorem dims_lineFilledGo (idxs : List Nat) (b : Grid) (sc : Nat)
    (hidx : ∀ i ∈ idxs, i < b.length) (hd : dims20x10 b) :
    dims20x10 (lineFilledGo b sc idxs).1 := by
  induction idxs generalizing b sc with
  | nil => exact hd
  | cons i rest ih =>
    unfold lineFilledGo
    have hi := hidx i (List.mem_cons_self i rest)
    by_cases hf : rowFull (b.getD i []) = true
    · rw [lineFilledStep_fire b sc i hf]
      have hlen : (emptyRow :: b.eraseIdx i).length = b.length := by
        rw [List.length_cons, List.length_eraseIdx, if_pos hi]
        omega
      apply ih
      · intro j hj
        rw [hlen]
        exact hidx j (List.mem_cons_of_mem i hj)
      · constructor
        · rw [hlen]
          exact hd.1
        · intro r hr
          rcases List.mem_cons.mp hr with rfl | hmem
          · rfl
          · exact hd.2 _ ((List.eraseIdx_sublist b i).subset hmem)
    · rw [lineFilledStep_no_fire b sc i (by simpa using hf)]
      exact ih b sc (fun j hj => hidx j (List.mem_cons_of_mem i hj)) hd

theorem dims_update_line_filled (b : Grid) (sc : Nat) (hd : dims20x10 b) :
    dims20x10 (update_line_filled b sc).1 :=
  dims_lineFilledGo (List.range b.length) b sc (fun i hi => List.mem_range.mp hi) hd

theorem dims_spawn_quad (s : GState) (q : Quad) (hd : dims20x10 s.board) :
    dims20x10 (exceptBoard (spawn_quad s q)) := by
  unfold spawn_quad
  by_cases hact : s.active.isSome = true
  · rw [if_pos hact]
    exact hd
  · rw [if_neg hact]
    by_cases hav : coords_available s.board q.coords = true
    · rw [if_pos hav]
      have h2 := dims_update_board_list s.board q.coords [] hd
      cases hu : update_board_list s.board q.coords [] with
      | error e =>
        simp only [hu]
        rw [hu] at h2
        exact h2
      | ok b2 =>
        simp only [hu]
        rw [hu] at h2
        exact h2
    · rw [if_neg hav]
      exact hd

theorem dims_update_active_quad (s : GState) (a : GameAction) (hd : dims20x10 s.board) :
    dims20x10 (exceptBoard (update_active_quad s a)) := by
  unfold update_active_quad
  by_cases hquit : a = GameAction.QUIT
  · rw [if_pos hquit]
    exact hd
  · rw [if_neg hquit]
    cases hact : s.active with
    | none => exact hd
    | some q =>
      simp only []
      by_cases hav : coords_available s.board
          ((q.candidate a).filter fun c => c ∉ q.coords) = true
      · rw [if_pos hav]
        have h2 := dims_update_board_list s.board
          ((q.candidate a).filter fun c => c ∉ q.coords)
          (q.coords.filter fun c => c ∉ q.candidate a) hd
        cases hu : update_board_list s.board
            ((q.candidate a).filter fun c => c ∉ q.coords)
            (q.coords.filter fun c => c ∉ q.candidate a) with
        | error e =>
          simp only [hu]
          rw [hu] at h2
          exact h2
        | ok b2 =>
          simp only [hu]
          rw [hu] at h2
          cases hup : q.update_coords (q.candidate a) with
          | none => simp only [hup]; exact h2
          | some q2 => simp only [hup]; exact h2
      · rw [if_neg hav]
        by_cases hdown : a = GameAction.TRANSLATE_DOWN
        · rw [if_pos hdown]
          exact dims_update_line_filled s.board s.score hd
        · rw [if_neg hdown]
          exact hd

/-- Counterexample to C1 as stated: the occupancy matrix built by
`Board.__init__` has 20 rows, not 19 (the source literal lists ten
lines of two rows each). -/
theorem C1_initial_board_has_twenty_rows :
    initBoard.length = 20 ∧ initBoard.length ≠ 19 := by
  decide

/-- C1 (amended): the board is created with exactly 20 rows of 10
columns (row 0 topmost), and every operation — line compaction, cell
mutation (on its returned or raised board), spawning and action
handling — preserves these dimensions. -/
theorem C1_board_dims_preserved (b : Grid) (sc : Nat) (add rem : List Coord)
    (s : GState) (q : Quad) (a : GameAction) :
    dims20x10 initBoard ∧
    (dims20x10 b → dims20x10 (update_line_filled b sc).1) ∧
    (dims20x10 b → dims20x10 (ublBoard (update_board_list b add rem))) ∧
    (dims20x10 s.board → dims20x10 (exceptBoard (spawn_quad s q))) ∧
    (dims20x10 s.board → dims20x10 (exceptBoard (update_active_quad s a))) :=
  ⟨by decide,
   dims_update_line_filled b sc,
   dims_update_board_list b add rem,
   dims_spawn_quad s q,
   dims_update_active_quad s a⟩

/-- Witness for C1's amended theorem: concrete operations on the real
initial board keep 20 rows of 10 columns. -/
theorem C1_board_dims_preserved_witness :
    dims20x10 (update_line_filled initBoard 0).1 ∧
    dims20x10 (exceptBoard (spawn_quad GState.init (Quad.init QuadType.LINE))) :=
  ⟨(C1_board_dims_preserved initBoard 0 [] [] GState.init (Quad.init QuadType.LINE)
      GameAction.TRANSLATE_DOWN).2.1 (by decide),
   (C1_board_dims_preserved initBoard 0 [] [] GState.init (Quad.init QuadType.LINE)
      GameAction.TRANSLATE_DOWN).2.2.2.1 (by decide)⟩
